import Mathlib

/-
Verification of the dataset-generation and perturbation-similarity pipeline of
the tumour-model parameter-identification repository.

The development shallowly embeds the relevant parts of
simulation/dataset_generator.py, simulation_similarity_analysis/metrics.py and
simulation_similarity_analysis/dataset_processing.py.  Numeric values handled
by numpy are modelled with exact rational arithmetic extended with the IEEE
special values (NaN and the infinities); parameter values, differences and
tolerances are rationals; randomness is passed in as explicit oracle functions.
-/

namespace TumourPipeline

/-! ## Extended float values -/

/-- Value domain modelling numpy floating-point scalars: a finite value kept as
an exact rational, a symbolic square root of a nonnegative rational (produced
only by the standard deviation, and never consumed by further arithmetic in
this development), the quiet NaN, and the two infinities. -/
inductive NFloat where
  | fin (q : ℚ)
  | sqf (q : ℚ)
  | nan
  | inf
  | ninf
deriving DecidableEq, Repr

/-- IEEE addition: NaN propagates and inf + (-inf) is NaN.  Symbolic square
roots never enter arithmetic here; for totality they map to NaN. -/
def NFloat.add : NFloat → NFloat → NFloat
  | .nan, _ => .nan
  | _, .nan => .nan
  | .sqf _, _ => .nan
  | _, .sqf _ => .nan
  | .inf, .ninf => .nan
  | .ninf, .inf => .nan
  | .inf, _ => .inf
  | _, .inf => .inf
  | .ninf, _ => .ninf
  | _, .ninf => .ninf
  | .fin a, .fin b => .fin (a + b)

/-- IEEE subtraction, with the same conventions as NFloat.add. -/
def NFloat.sub : NFloat → NFloat → NFloat
  | .nan, _ => .nan
  | _, .nan => .nan
  | .sqf _, _ => .nan
  | _, .sqf _ => .nan
  | .inf, .inf => .nan
  | .ninf, .ninf => .nan
  | .inf, _ => .inf
  | .ninf, _ => .ninf
  | _, .inf => .ninf
  | _, .ninf => .inf
  | .fin a, .fin b => .fin (a - b)

/-- IEEE multiplication: 0 times an infinity is NaN. -/
def NFloat.mul : NFloat → NFloat → NFloat
  | .nan, _ => .nan
  | _, .nan => .nan
  | .sqf _, _ => .nan
  | _, .sqf _ => .nan
  | .fin a, .fin b => .fin (a * b)
  | .inf, .inf => .inf
  | .inf, .ninf => .ninf
  | .ninf, .inf => .ninf
  | .ninf, .ninf => .inf
  | .inf, .fin b => if b = 0 then .nan else if 0 < b then .inf else .ninf
  | .fin a, .inf => if a = 0 then .nan else if 0 < a then .inf else .ninf
  | .ninf, .fin b => if b = 0 then .nan else if 0 < b then .ninf else .inf
  | .fin a, .ninf => if a = 0 then .nan else if 0 < a then .ninf else .inf

/-- IEEE absolute value. -/
def NFloat.abs : NFloat → NFloat
  | .fin q => .fin |q|
  | .sqf q => .sqf q
  | .nan => .nan
  | .inf => .inf
  | .ninf => .inf

/-- Division of an extended float by a list length (used only by the mean). -/
def NFloat.divNat : NFloat → ℕ → NFloat
  | _, 0 => .nan
  | .fin a, n => .fin (a / n)
  | .sqf _, _ => .nan
  | .nan, _ => .nan
  | .inf, _ => .inf
  | .ninf, _ => .ninf

/-- np.isnan on one element. -/
def NFloat.isnan : NFloat → Bool
  | .nan => true
  | _ => false

/-- np.sum over a 1-D slice (the empty sum is 0, as in numpy). -/
def npSum (l : List NFloat) : NFloat := l.foldl NFloat.add (.fin 0)

/-- np.mean over a 1-D slice; the mean of an empty slice is NaN (numpy emits a
RuntimeWarning but does not raise). -/
def npMean (l : List NFloat) : NFloat :=
  if l.isEmpty then .nan else (npSum l).divNat l.length

/-- np.var over a 1-D slice: the mean of the squared deviations from the mean. -/
def npVar (l : List NFloat) : NFloat :=
  if l.isEmpty then .nan
  else npMean (l.map (fun x => (x.sub (npMean l)).mul (x.sub (npMean l))))

/-- np.std over a 1-D slice: the square root of npVar.  A positive rational
variance yields the symbolic square root value. -/
def npStd (l : List NFloat) : NFloat :=
  match npVar l with
  | .fin q => if q < 0 then .nan else if q = 0 then .fin 0 else .sqf q
  | .sqf q => .sqf q
  | .nan => .nan
  | .inf => .inf
  | .ninf => .nan

/-! ## ndarray model -/

/-- Row-major numpy ndarray model: a shape together with the flattened data. -/
structure NdArray where
  shape : List ℕ
  data : List NFloat
deriving DecidableEq, Repr

/-- np.array applied to the list of pool results: stacks the equally shaped
arrays along a new leading axis; an empty list gives an empty 1-D array. -/
def npStack : List NdArray → NdArray
  | [] => ⟨[0], []⟩
  | r :: rs => ⟨(r :: rs).length :: r.shape, (r :: rs).flatMap NdArray.data⟩

/-- Boolean-mask selection results[~np.isnan(results)]: numpy always returns a
1-D array holding the kept elements in row-major order, whatever the rank of
the input. -/
def selectNotNan (a : NdArray) : NdArray :=
  let kept := a.data.filter (fun x => !x.isnan)
  ⟨[kept.length], kept⟩

/-- Product of the extents of a shape. -/
def prodShape (l : List ℕ) : ℕ := l.foldr (· * ·) 1

/-- np.mean(a, axis=0): collapses the leading axis, taking the mean of each
column of the leading axis. -/
def meanAxis0 (a : NdArray) : NdArray :=
  match a.shape with
  | [] => a
  | n :: rest =>
    let m := prodShape rest
    ⟨rest, (List.range m).map (fun j =>
      npMean ((List.range n).map (fun i => a.data.getD (i * m + j) .nan)))⟩

/-- np.std(a, axis=0): collapses the leading axis with the standard deviation. -/
def stdAxis0 (a : NdArray) : NdArray :=
  match a.shape with
  | [] => a
  | n :: rest =>
    let m := prodShape rest
    ⟨rest, (List.range m).map (fun j =>
      npStd ((List.range n).map (fun i => a.data.getD (i * m + j) .nan)))⟩

/-! ## Metric library (metrics.py) -/

/-- dice_function of metrics.py: flatten both images, count the positions with
equal values, and return twice that count divided by the PRODUCT of the two
lengths, which is the denominator the source actually uses. -/
def dice_function (image1 image2 : List (List ℚ)) : ℚ :=
  let flatten_image1 := image1.flatten
  let flatten_image2 := image2.flatten
  let number_of_equal :=
    ((flatten_image1.zip flatten_image2).filter (fun p => decide (p.1 = p.2))).length
  2 * (number_of_equal : ℚ) /
    ((flatten_image1.length : ℚ) * (flatten_image2.length : ℚ))

/-- The Metric.IMAGE_ABSOLUTE_DIFFERENCE function: elementwise absolute
difference of two equally shaped arrays. -/
def image_absolute_difference (a b : NdArray) : NdArray :=
  ⟨a.shape, (a.data.zip b.data).map (fun p => (p.1.sub p.2).abs)⟩

/-! ## Dataset generation (dataset_generator.py) -/

/-- The four channel types captured per draw, in the order generate_sample
inserts them into the sample dictionary. -/
def IMG_TYPES : List String := ["cells_types", "cells_densities", "oxygen", "glucose"]

/-- One snapshot file, as named by the DATA_NAME template and recovered by the
resumption regex: the sample index, the channel type and the timestep.  The
files written by the generator use the canonical decimal rendering of the
index, so the string key the source counts with is in bijection with the
natural-number index used here. -/
structure SnapshotFile where
  idx : ℕ
  imgType : String
  time : ℕ
deriving DecidableEq, Repr

/-- The generator configuration relevant to resumption. -/
structure GenConfig where
  start_draw : ℕ
  interval : ℕ
  n_draw : ℕ
  n_samples : ℕ
deriving Repr

/-- The per-sample snapshot count of the resumption scan: the number of
directory entries whose parsed index equals the sample index. -/
def snapshotCount (files : List SnapshotFile) (s : ℕ) : ℕ :=
  (files.filter (fun f => decide (f.idx = s))).length

/-- Line 161 of dataset_generator.py: the sample indices in range n_samples
whose snapshot count differs from n_draw * 4. -/
def missing_samples (files : List SnapshotFile) (n_samples n_draw : ℕ) : List ℕ :=
  (List.range n_samples).filter (fun s => decide (snapshotCount files s ≠ n_draw * 4))

/-- The files written by one generation unit for sample i: for each of the
n_draw draw times, one file per channel type, all carrying index i. -/
def generate_writes (cfg : GenConfig) (i : ℕ) : List SnapshotFile :=
  (List.range cfg.n_draw).flatMap (fun k =>
    IMG_TYPES.map (fun t => ⟨i, t, cfg.start_draw + k * cfg.interval⟩))

/-- The dataset directory as the resumption pass sees it: whether the
parameter table dataset.csv is present, and the parsed snapshot files. -/
structure DatasetDir where
  hasCsv : Bool
  files : List SnapshotFile

/-- generate_missing_multi_process (lines 154-175): reading the parameter
table raises if dataset.csv is absent; otherwise the missing sample indices
are computed from the per-index snapshot counts and exactly those indices are
submitted as generation units.  The result is the missing set together with
all snapshot writes performed. -/
def generate_missing_multi_process (dir : DatasetDir) (cfg : GenConfig) :
    Except String (List ℕ × List SnapshotFile) :=
  if dir.hasCsv then
    let missing := missing_samples dir.files cfg.n_samples cfg.n_draw
    .ok (missing, missing.flatMap (generate_writes cfg))
  else
    .error "FileNotFoundError: dataset.csv"

/-! ## Parameter sampling (generate_parameters) -/

/-- One row of the parameter-range table: name, type tag, default value and
range bounds. -/
structure ParamRange where
  name : String
  type : String
  defaultValue : ℚ
  minimum : ℚ
  maximum : ℚ

/-- Python int() truncation toward zero. -/
def pyInt (q : ℚ) : ℤ := if 0 ≤ q then ⌊q⌋ else ⌈q⌉

/-- np.random.uniform(low, high) for one unit draw u in the interval from 0
inclusive to 1 exclusive. -/
def np_random_uniform (low high : ℚ) (u : ℚ) : ℚ := low + (high - low) * u

/-- One column of generate_parameters (lines 94-107): a parameter not of
interest broadcasts its default (cast with int() for integer parameters); a
parameter of interest draws per sample, np.random.randint(min, max + 1) for
integer parameters (raising when low is at least high) and
np.random.uniform(min, max) for real parameters.  rngNat and rngUnit are the
randomness oracles, indexed by table row and sample. -/
def draw_column (row : ParamRange) (parameters_of_interest : List String)
    (n_samples : ℕ) (rowIdx : ℕ) (rngNat : ℕ → ℕ → ℕ) (rngUnit : ℕ → ℕ → ℚ) :
    Except String (List ℚ) :=
  if row.name ∈ parameters_of_interest then
    if row.type = "int" then
      let low := pyInt row.minimum
      let high := pyInt row.maximum + 1
      if high ≤ low then .error "ValueError: low is greater than or equal to high"
      else .ok ((List.range n_samples).map (fun k =>
        ((low + ((rngNat rowIdx k % (high - low).toNat : ℕ) : ℤ) : ℤ) : ℚ)))
    else
      .ok ((List.range n_samples).map (fun k =>
        np_random_uniform row.minimum row.maximum (rngUnit rowIdx k)))
  else
    if row.type = "int" then .ok (List.replicate n_samples ((pyInt row.defaultValue : ℤ) : ℚ))
    else .ok (List.replicate n_samples row.defaultValue)

/-- The row-by-row loop of generate_parameters, threading the table row index
used to address the randomness oracles. -/
def generate_parameters_aux (parameters_of_interest : List String) (n_samples : ℕ)
    (rngNat : ℕ → ℕ → ℕ) (rngUnit : ℕ → ℕ → ℚ) :
    ℕ → List ParamRange → Except String (List (String × List ℚ))
  | _, [] => .ok []
  | rowIdx, row :: rest => do
    let col ← draw_column row parameters_of_interest n_samples rowIdx rngNat rngUnit
    let others ← generate_parameters_aux parameters_of_interest n_samples rngNat rngUnit
      (rowIdx + 1) rest
    return (row.name, col) :: others

/-- generate_parameters (lines 92-107): one named column per row of the
parameter-range table. -/
def generate_parameters (parameter_data : List ParamRange)
    (parameters_of_interest : List String) (n_samples : ℕ)
    (rngNat : ℕ → ℕ → ℕ) (rngUnit : ℕ → ℕ → ℚ) :
    Except String (List (String × List ℚ)) :=
  generate_parameters_aux parameters_of_interest n_samples rngNat rngUnit 0 parameter_data

/-! ## Pair sampling (dataset_processing.py) -/

/-- The index pairs of the mask of find_value_pairs: all (i, j) positions of
the pairwise absolute-difference matrix whose entry is within tol of the
requested difference (np.argwhere order), then filtered to the upper triangle
including the diagonal. -/
def valuePairPositions (a : List ℚ) (difference tol : ℚ) : List (ℕ × ℕ) :=
  (((List.range a.length).flatMap (fun i =>
      (List.range a.length).map (fun j => (i, j)))).filter
    (fun p => decide (abs (abs (a.getD p.1 0 - a.getD p.2 0) - difference) ≤ tol))).filter
    (fun p => decide (p.1 ≤ p.2))

/-- find_value_pairs (lines 24-29): the value pairs a[indices] of the
selected positions. -/
def find_value_pairs (a : List ℚ) (difference tol : ℚ) : List (ℚ × ℚ) :=
  (valuePairPositions a difference tol).map (fun p => (a.getD p.1 0, a.getD p.2 0))

/-- get_possible_param_values: the distinct values of the parameter column
(np.array(list(set(...)))). -/
def get_possible_param_values (ds : List ℚ) : List ℚ := ds.dedup

/-- get_all_indexes: the positions of the dataset column holding the value. -/
def get_all_indexes (ds : List ℚ) (v : ℚ) : List ℕ :=
  (List.range ds.length).filter (fun i => decide (ds.getD i 0 = v))

/-- Lexicographic order on index pairs, the row order np.unique sorts into. -/
def pairLexLe (p q : ℕ × ℕ) : Bool :=
  decide (p.1 < q.1) || (decide (p.1 = q.1) && decide (p.2 ≤ q.2))

/-- np.unique(pairs, axis=0): the distinct rows in lexicographic order. -/
def np_unique (l : List (ℕ × ℕ)) : List (ℕ × ℕ) := l.dedup.mergeSort pairLexLe

/-- One iteration of the accumulation loop (lines 156-164) for one qualifying
value pair: the meshgrid cross product of the index sets of the two values
(numpy row-major order: the second index set varies along the outer axis),
self-pairs dropped, each pair sorted, and np.unique applied. -/
def pair_candidates (ds : List ℚ) (vp : ℚ × ℚ) : List (ℕ × ℕ) :=
  let indexes1 := get_all_indexes ds vp.1
  let indexes2 := get_all_indexes ds vp.2
  let mesh := indexes2.flatMap (fun j => indexes1.map (fun i => (i, j)))
  let noSelf := mesh.filter (fun p => decide (p.1 ≠ p.2))
  let canon := noSelf.map (fun p => (min p.1 p.2, max p.1 p.2))
  np_unique canon

/-- The accumulated candidate pair set: none models the source variable
all_indexes_pairs remaining None when no value pair qualifies (the subsequent
len(None) then raises); otherwise the concatenation over the qualifying value
pairs. -/
def all_indexes_pairs (ds : List ℚ) (difference tol : ℚ) : Option (List (ℕ × ℕ)) :=
  match find_value_pairs (get_possible_param_values ds) difference tol with
  | [] => none
  | vps => some (vps.flatMap (pair_candidates ds))

/-! ## Scalar similarity table -/

/-- The composite key of a similarity computation. -/
structure SimKey where
  metric : String
  timestep : ℕ
  imgType : String
  parameter : String
  difference : ℚ
deriving DecidableEq, Repr

/-- One row of the shared scalar similarity table: the key columns plus the
mean and standard deviation columns. -/
structure ScalarRow where
  key : SimKey
  meanV : NFloat
  stdV : NFloat
deriving DecidableEq, Repr

/-- pandas frame.loc with an integer label: replaces the row if the label is
present, otherwise appends the row at the end. -/
def locSet (table : List (ℤ × ScalarRow)) (lbl : ℤ) (r : ScalarRow) :
    List (ℤ × ScalarRow) :=
  if table.any (fun e => decide (e.1 = lbl)) then
    table.map (fun e => if e.1 = lbl then (lbl, r) else e)
  else table ++ [(lbl, r)]

/-- pandas drop_duplicates on the key columns with keep equal to last: a row
survives exactly when no later row carries the same key. -/
def dropDupKeepLast : List (ℤ × ScalarRow) → List (ℤ × ScalarRow)
  | [] => []
  | e :: rest =>
    if rest.any (fun e2 => decide (e2.2.key = e.2.key)) then dropDupKeepLast rest
    else e :: dropDupKeepLast rest

/-- Comparison of table entries by row label. -/
def labelLe (a b : ℤ × ScalarRow) : Bool := decide (a.1 ≤ b.1)

/-- pandas sort_index(): stable sort of the rows by label. -/
def sortByLabel (l : List (ℤ × ScalarRow)) : List (ℤ × ScalarRow) :=
  l.mergeSort labelLe

/-- Lines 197-200 of dataset_processing.py: write the new row under label -1,
shift every label up by one, drop duplicate keys keeping the last row, and
sort by label. -/
def upsert (table : List (ℤ × ScalarRow)) (r : ScalarRow) : List (ℤ × ScalarRow) :=
  let t1 := locSet table (-1) r
  let t2 := t1.map (fun e => (e.1 + 1, e.2))
  sortByLabel (dropDupKeepLast t2)

/-! ## Aggregation and persistence -/

/-- What similarity_between_matrix_per_difference persists: either the two
matrix artifacts named by the key, or the updated shared scalar table. -/
inductive PersistAction where
  | matrixWrite (key : SimKey) (mean std : NdArray)
  | scalarWrite (table : List (ℤ × ScalarRow))
deriving DecidableEq, Repr

/-- Lines 179-201 of dataset_processing.py: stack the pooled results, remove
NaN entries by boolean-mask selection (which flattens the stacked array to one
dimension), aggregate along axis 0, and branch on the dimensionality of the
mean: a 2-D mean is written as two matrix artifacts, anything else as an
upserted row of the shared scalar table. -/
def postProcess (results : List NdArray) (table : List (ℤ × ScalarRow))
    (key : SimKey) : PersistAction :=
  let arr := npStack results
  let filtered := selectNotNan arr
  let mean := meanAxis0 filtered
  let std := stdAxis0 filtered
  if mean.shape.length = 2 then .matrixWrite key mean std
  else .scalarWrite (upsert table ⟨key, mean.data.getD 0 .nan, std.data.getD 0 .nan⟩)

/-- similarity_between_matrix_per_difference (lines 152-201), with snapshot
loading (snap) and the metric body (metricF) as oracles and np.random.choice
modelled by a seed oracle: draw number k picks candidate seed k mod the
candidate count.  A None candidate accumulator raises in len(); an empty
candidate list raises inside np.random.choice whenever at least one draw is
requested; otherwise the subsample is evaluated and the aggregate persisted. -/
def similarity_between_matrix_per_difference (ds : List ℚ) (snap : ℕ → NdArray)
    (metricF : NdArray → NdArray → NdArray) (key : SimKey) (difference tol : ℚ)
    (iteration : ℕ) (seed : ℕ → ℕ) (table : List (ℤ × ScalarRow)) :
    Except String PersistAction :=
  match all_indexes_pairs ds difference tol with
  | none => .error "TypeError: object of type NoneType has no len"
  | some cands =>
    if cands.length = 0 ∧ 0 < iteration then
      .error "ValueError: a must be greater than 0 unless no samples are taken"
    else
      let chosen := (List.range iteration).map
        (fun k => cands.getD (seed k % cands.length) (0, 0))
      let results := chosen.map (fun p => metricF (snap p.1) (snap p.2))
      .ok (postProcess results table key)

/-! ## Dataset folder name (DATASET_FOLDER_NAME template) -/

/-- The decimal digit character for one digit value. -/
def decDigit (d : ℕ) : Char := Char.ofNat (48 + d)

/-- Python str() of a nonnegative integer: decimal digits, most significant
first. -/
def natToChars (n : ℕ) : List Char :=
  if n = 0 then ['0'] else ((Nat.digits 10 n).map decDigit).reverse

/-- The literal separator before the start time in the folder-name template. -/
def LIT_START : List Char := "_start=".toList

/-- The literal separator before the interval. -/
def LIT_INTERVAL : List Char := "_interval=".toList

/-- The literal separator before the draw count. -/
def LIT_NDRAW : List Char := "_ndraw=".toList

/-- The literal separator before the grid size. -/
def LIT_SIZE : List Char := "_size=(".toList

/-- The DATASET_FOLDER_NAME template of dataset_generator.py applied to
(name, start_draw, interval, n_draw, width, height). -/
def dataset_folder_name (name : List Char) (start interval ndraw w h : ℕ) :
    List Char :=
  name ++ LIT_START ++ natToChars start ++ LIT_INTERVAL ++
    natToChars interval ++ LIT_NDRAW ++ natToChars ndraw ++
    LIT_SIZE ++ natToChars w ++ [','] ++ natToChars h ++ [')']

/-- The digit value of a decimal digit character. -/
def charToDigit (c : Char) : ℕ := c.toNat - 48

/-- Decode a reversed (least significant first) list of digit characters. -/
def charsRevToNat (revDigits : List Char) : ℕ :=
  Nat.ofDigits 10 (revDigits.map charToDigit)

/-- Match a literal prefix of a character list. -/
def stripLit (lit l : List Char) : Option (List Char) :=
  if l.take lit.length = lit then some (l.drop lit.length) else none

/-- Read a nonempty maximal run of digit characters from the front of a
reversed string and decode it. -/
def parseNumRev (l : List Char) : Option (ℕ × List Char) :=
  match l.takeWhile Char.isDigit with
  | [] => none
  | ds => some (charsRevToNat ds, l.dropWhile Char.isDigit)

/-- Recover the six components of a dataset folder name by reading the fixed
template back from the right end of the string. -/
def parse_folder_name (s : List Char) : Option (List Char × ℕ × ℕ × ℕ × ℕ × ℕ) := do
  let r0 ← stripLit [')'] s.reverse
  let (h, r1) ← parseNumRev r0
  let r2 ← stripLit [','] r1
  let (w, r3) ← parseNumRev r2
  let r4 ← stripLit LIT_SIZE.reverse r3
  let (ndraw, r5) ← parseNumRev r4
  let r6 ← stripLit LIT_NDRAW.reverse r5
  let (interval, r7) ← parseNumRev r6
  let r8 ← stripLit LIT_INTERVAL.reverse r7
  let (start, r9) ← parseNumRev r8
  let r10 ← stripLit LIT_START.reverse r9
  some (r10.reverse, start, interval, ndraw, w, h)

/-! ## Shared concrete scenario pieces -/

/-- Snapshot oracle of the concrete similarity scenarios: sample 0 is the
all-zero 2 by 2 grid, every other sample the all-one 2 by 2 grid. -/
def snap01 : ℕ → NdArray := fun i =>
  if i = 0 then ⟨[2, 2], [.fin 0, .fin 0, .fin 0, .fin 0]⟩
  else ⟨[2, 2], [.fin 1, .fin 1, .fin 1, .fin 1]⟩

/-- A scalar metric returning NaN on every pair, as the Pearson correlation of
two constant fields does. -/
def nanMetric : NdArray → NdArray → NdArray := fun _ _ => ⟨[], [.nan]⟩

/-! ## C10: resumption requires the parameter table -/

/-- C10: if the parameter table dataset.csv is absent from the dataset
directory, generate_missing_multi_process raises at the read of the table,
before submitting any generation unit: the run yields an error and no missing
set or write is produced. -/
theorem c10_missing_csv_raises (dir : DatasetDir) (cfg : GenConfig)
    (h : dir.hasCsv = false) :
    generate_missing_multi_process dir cfg =
      .error "FileNotFoundError: dataset.csv" := by
  simp [generate_missing_multi_process, h]

/-- Witness for C10 at a concrete directory without dataset.csv. -/
theorem c10_missing_csv_raises_witness :
    generate_missing_multi_process ⟨false, [⟨0, "oxygen", 350⟩]⟩ ⟨350, 100, 8, 4⟩ =
      .error "FileNotFoundError: dataset.csv" :=
  c10_missing_csv_raises ⟨false, [⟨0, "oxygen", 350⟩]⟩ ⟨350, 100, 8, 4⟩ rfl

/-! ## C5: the dice function -/

/-- C5 (evaluation of the defect): dice of a 2 by 2 image with itself is one
half, not 1, because the source divides by the product of the flattened
lengths instead of their sum. -/
theorem c5_dice_self_not_one :
    dice_function [[0, 0], [0, 0]] [[0, 0], [0, 0]] = 1 / 2 ∧
      dice_function [[0, 0], [0, 0]] [[0, 0], [0, 0]] ≠ 1 := by
  constructor
  · with_unfolding_all rfl
  · with_unfolding_all decide

/-! ## C2: grid-valued metric results reach the scalar table -/

/-- C2 (evaluation of the defect): for the grid-valued absolute-difference
metric on 2 by 2 snapshots the pipeline appends a scalar row to the shared
table instead of writing the two matrix artifacts: the boolean-mask NaN filter
flattens the stacked results to one dimension, so the mean is 0-dimensional
and the matrix branch is unreachable. -/
theorem c2_matrix_result_written_to_scalar_table :
    similarity_between_matrix_per_difference [1, 2] snap01 image_absolute_difference
        ⟨"image absolute difference", 350, "oxygen", "cell_cycle", 1⟩ 1 0 1
        (fun _ => 0) [] =
      .ok (.scalarWrite [(0, ⟨⟨"image absolute difference", 350, "oxygen",
        "cell_cycle", 1⟩, .fin 1, .fin 0⟩)]) := by
  with_unfolding_all rfl

/-! ## C6: NaN filtering and empty aggregation -/

/-- C6 counterexample: with every metric result NaN the filter empties the
result set, yet the aggregation does not fail: the pipeline persists a scalar
row whose mean and standard deviation are both NaN. -/
theorem c6_counterexample_nan_persisted :
    similarity_between_matrix_per_difference [1, 2] snap01 nanMetric
        ⟨"correlation", 350, "oxygen", "cell_cycle", 1⟩ 1 0 1 (fun _ => 0) [] =
      .ok (.scalarWrite [(0, ⟨⟨"correlation", 350, "oxygen", "cell_cycle", 1⟩,
        .nan, .nan⟩)]) := by
  with_unfolding_all rfl

/-- C6 amended: the filter removes exactly the NaN entries (all other values,
infinities included, are retained), and when nothing survives the aggregation
does not raise: the pipeline persists a scalar-table row whose mean and
standard deviation are NaN. -/
theorem c6_amended_nan_filter_no_failure (results : List NdArray)
    (table : List (ℤ × ScalarRow)) (key : SimKey) :
    (∀ x ∈ (selectNotNan (npStack results)).data, x.isnan = false) ∧
    (∀ x ∈ (npStack results).data, x.isnan = false →
        x ∈ (selectNotNan (npStack results)).data) ∧
    ((selectNotNan (npStack results)).data = [] →
      postProcess results table key =
        .scalarWrite (upsert table ⟨key, .nan, .nan⟩)) := by
  refine ⟨?_, ?_, ?_⟩
  · intro x hx
    rw [selectNotNan, List.mem_filter] at hx
    simpa using hx.2
  · intro x hx hnn
    rw [selectNotNan, List.mem_filter]
    exact ⟨hx, by simp [hnn]⟩
  · intro hempty
    have hf : List.filter (fun x => !x.isnan) (npStack results).data = [] := by
      simpa [selectNotNan] using hempty
    simp only [postProcess, selectNotNan, hf]
    rfl

/-- Witness for the amended C6 statement at a single NaN scalar result. -/
theorem c6_amended_nan_filter_no_failure_witness :
    postProcess [⟨[], [.nan]⟩] [] ⟨"correlation", 350, "oxygen", "cell_cycle", 1⟩ =
      .scalarWrite (upsert [] ⟨⟨"correlation", 350, "oxygen", "cell_cycle", 1⟩,
        .nan, .nan⟩) :=
  (c6_amended_nan_filter_no_failure [⟨[], [.nan]⟩] []
    ⟨"correlation", 350, "oxygen", "cell_cycle", 1⟩).2.2 (by rfl)

/-! ## C7: empty candidate sets -/

/-- C7 counterexample: for the column [1, 1, 5] with difference 0 and
tolerance 0 no pair of DISTINCT parameter values satisfies the constraint,
yet the call does not raise: the equal-value pair (1, 1) qualifies, the
candidate set holds the index pair (0, 1), and a result is persisted. -/
theorem c7_counterexample_distinct_values :
    (∀ v1 ∈ get_possible_param_values [1, 1, 5],
      ∀ v2 ∈ get_possible_param_values [1, 1, 5],
        v1 ≠ v2 → ¬ (abs (abs (v1 - v2) - 0) ≤ 0)) ∧
    similarity_between_matrix_per_difference [1, 1, 5] snap01 nanMetric
        ⟨"correlation", 350, "oxygen", "cell_cycle", 0⟩ 0 0 1 (fun _ => 0) [] =
      .ok (.scalarWrite [(0, ⟨⟨"correlation", 350, "oxygen", "cell_cycle", 0⟩,
        .nan, .nan⟩)]) := by
  constructor
  · with_unfolding_all decide
  · with_unfolding_all rfl

/-- C7 amended: when no pair of parameter values, equal values included,
satisfies the difference/tolerance constraint (find_value_pairs returns
nothing), or the accumulated candidate set is empty and at least one draw is
requested, the call raises before persisting anything. -/
theorem c7_amended_empty_candidates_raise (ds : List ℚ) (snap : ℕ → NdArray)
    (metricF : NdArray → NdArray → NdArray) (key : SimKey) (difference tol : ℚ)
    (iteration : ℕ) (seed : ℕ → ℕ) (table : List (ℤ × ScalarRow))
    (h : find_value_pairs (get_possible_param_values ds) difference tol = [] ∨
        (all_indexes_pairs ds difference tol = some [] ∧ 0 < iteration)) :
    ∃ msg, similarity_between_matrix_per_difference ds snap metricF key
        difference tol iteration seed table = .error msg := by
  rcases h with h | ⟨h, hiter⟩
  · refine ⟨"TypeError: object of type NoneType has no len", ?_⟩
    have hnone : all_indexes_pairs ds difference tol = none := by
      rw [all_indexes_pairs, h]
    rw [similarity_between_matrix_per_difference, hnone]
  · refine ⟨"ValueError: a must be greater than 0 unless no samples are taken", ?_⟩
    rw [similarity_between_matrix_per_difference, h]
    simp [hiter]

/-- Witness for the amended C7 statement: difference 10 over the values 1 and
2 admits no qualifying value pair, and the call errors out. -/
theorem c7_amended_empty_candidates_raise_witness :
    ∃ msg, similarity_between_matrix_per_difference [1, 2] snap01 nanMetric
        ⟨"correlation", 350, "oxygen", "cell_cycle", 10⟩ 10 0 1 (fun _ => 0) [] =
      .error msg :=
  c7_amended_empty_candidates_raise [1, 2] snap01 nanMetric
    ⟨"correlation", 350, "oxygen", "cell_cycle", 10⟩ 10 0 1 (fun _ => 0) []
    (Or.inl (by with_unfolding_all decide))

/-! ## C4: upsert semantics of the scalar table -/

/-- A row surviving the keep-last deduplication was present beforehand. -/
theorem mem_dropDupKeepLast {e : ℤ × ScalarRow} {l : List (ℤ × ScalarRow)}
    (h : e ∈ dropDupKeepLast l) : e ∈ l := by
  induction l with
  | nil => simp [dropDupKeepLast] at h
  | cons x xs ih =>
    rw [dropDupKeepLast] at h
    by_cases hc : xs.any (fun e2 => decide (e2.2.key = x.2.key)) = true
    · rw [if_pos hc] at h
      exact List.mem_cons_of_mem x (ih h)
    · rw [if_neg hc] at h
      rcases List.mem_cons.mp h with h | h
      · exact h ▸ List.mem_cons_self x xs
      · exact List.mem_cons_of_mem x (ih h)

/-- After the keep-last deduplication every key occurs at most once. -/
theorem keys_nodup_dropDupKeepLast (l : List (ℤ × ScalarRow)) :
    ((dropDupKeepLast l).map (fun e => e.2.key)).Nodup := by
  induction l with
  | nil => simp [dropDupKeepLast]
  | cons x xs ih =>
    rw [dropDupKeepLast]
    by_cases hc : xs.any (fun e2 => decide (e2.2.key = x.2.key)) = true
    · rw [if_pos hc]; exact ih
    · rw [if_neg hc]
      rw [List.map_cons, List.nodup_cons]
      refine ⟨?_, ih⟩
      intro hmem
      rcases List.mem_map.mp hmem with ⟨e, he, hkey⟩
      exact hc (List.any_eq_true.mpr ⟨e, mem_dropDupKeepLast he, by simp [hkey]⟩)

/-- The last row of a list survives the keep-last deduplication, and every
surviving row carrying its key is that last row. -/
theorem dropDupKeepLast_append_last (l : List (ℤ × ScalarRow)) (x : ℤ × ScalarRow) :
    x ∈ dropDupKeepLast (l ++ [x]) ∧
      ∀ e ∈ dropDupKeepLast (l ++ [x]), e.2.key = x.2.key → e = x := by
  induction l with
  | nil =>
    refine ⟨by simp [dropDupKeepLast], ?_⟩
    intro e he _
    simpa [dropDupKeepLast] using he
  | cons y ys ih =>
    rw [List.cons_append, dropDupKeepLast]
    by_cases hc : (ys ++ [x]).any (fun e2 => decide (e2.2.key = y.2.key)) = true
    · rw [if_pos hc]; exact ih
    · rw [if_neg hc]
      have hky : ¬ x.2.key = y.2.key := by
        intro hk
        exact hc (List.any_eq_true.mpr ⟨x, by simp, by simp [hk]⟩)
      refine ⟨List.mem_cons_of_mem y ih.1, ?_⟩
      intro e he hkey
      rcases List.mem_cons.mp he with rfl | he
      · exact absurd hkey.symm hky
      · exact ih.2 e he hkey

/-- C4: after an upsert the scalar table has at most one row per composite
key, the freshly computed row is present (under label 0, the label the index
shift assigns it), and every row carrying the new key IS the new row: a later
computation for an existing key replaces the earlier row instead of appending
a duplicate or being rejected.  The hypothesis records that the table is one
the pipeline wrote: sort_index leaves only nonnegative row labels. -/
theorem c4_upsert_keep_last (table : List (ℤ × ScalarRow)) (r : ScalarRow)
    (hlbl : ∀ e ∈ table, (0 : ℤ) ≤ e.1) :
    ((upsert table r).map (fun e => e.2.key)).Nodup ∧
    ((0 : ℤ), r) ∈ upsert table r ∧
    (∀ e ∈ upsert table r, e.2.key = r.key → e = ((0 : ℤ), r)) := by
  have hloc : locSet table (-1) r = table ++ [(-1, r)] := by
    rw [locSet, if_neg]
    intro hany
    rcases List.any_eq_true.mp hany with ⟨e, he, hdec⟩
    have h0 := hlbl e he
    have h1 : e.1 = -1 := of_decide_eq_true hdec
    omega
  have hshift : (locSet table (-1) r).map (fun e => (e.1 + 1, e.2)) =
      table.map (fun e => (e.1 + 1, e.2)) ++ [((0 : ℤ), r)] := by
    rw [hloc, List.map_append]
    norm_num
  have hup : upsert table r =
      sortByLabel (dropDupKeepLast
        (table.map (fun e => (e.1 + 1, e.2)) ++ [((0 : ℤ), r)])) := by
    rw [upsert, hshift]
  have hlast := dropDupKeepLast_append_last
    (table.map (fun e => (e.1 + 1, e.2))) ((0 : ℤ), r)
  refine ⟨?_, ?_, ?_⟩
  · rw [hup, sortByLabel]
    have hperm := (List.mergeSort_perm (dropDupKeepLast
      (table.map (fun e => (e.1 + 1, e.2)) ++ [((0 : ℤ), r)])) labelLe).map
      (fun e : ℤ × ScalarRow => e.2.key)
    exact hperm.symm.nodup (keys_nodup_dropDupKeepLast _)
  · rw [hup, sortByLabel]
    exact List.mem_mergeSort.mpr hlast.1
  · intro e he hkey
    rw [hup, sortByLabel] at he
    exact hlast.2 e (List.mem_mergeSort.mp he) hkey

/-- A concrete row for the C4 witness. -/
def rowA : ScalarRow := ⟨⟨"correlation", 350, "oxygen", "cell_cycle", 1⟩, .fin 1, .fin 0⟩

/-- A later row carrying the same key but a different value. -/
def rowB : ScalarRow := ⟨⟨"correlation", 350, "oxygen", "cell_cycle", 1⟩, .fin 2, .fin 0⟩

/-- Witness for C4 at a one-row table receiving a row with the same key. -/
theorem c4_upsert_keep_last_witness :
    ((upsert [((0 : ℤ), rowA)] rowB).map (fun e => e.2.key)).Nodup ∧
    ((0 : ℤ), rowB) ∈ upsert [((0 : ℤ), rowA)] rowB ∧
    (∀ e ∈ upsert [((0 : ℤ), rowA)] rowB, e.2.key = rowB.key → e = ((0 : ℤ), rowB)) :=
  c4_upsert_keep_last [((0 : ℤ), rowA)] rowB (by simp)

/-! ## C1: the resumption pass -/

/-- Every file a generation unit for sample j writes carries index j. -/
theorem generate_writes_idx (cfg : GenConfig) (j : ℕ) :
    ∀ f ∈ generate_writes cfg j, f.idx = j := by
  intro f hf
  rw [generate_writes] at hf
  rcases List.mem_flatMap.mp hf with ⟨k, _, hfk⟩
  rcases List.mem_map.mp hfk with ⟨t, _, rfl⟩
  rfl

/-- C1: on a successful resumption run the missing set holds exactly the
in-range sample indices whose snapshot count differs from n_draw * 4; every
write is for a missing index; a generation unit for sample i writes only
index i; every unit of a missing index is resubmitted in full; and no write at
all touches an index whose snapshot count equals n_draw * 4. -/
theorem c1_resumption_exact (dir : DatasetDir) (cfg : GenConfig) (miss : List ℕ)
    (writes : List SnapshotFile) (i : ℕ)
    (hok : generate_missing_multi_process dir cfg = .ok (miss, writes)) :
    (i ∈ miss ↔ i < cfg.n_samples ∧ snapshotCount dir.files i ≠ cfg.n_draw * 4) ∧
    (∀ f ∈ writes, f.idx ∈ miss) ∧
    (∀ f ∈ generate_writes cfg i, f.idx = i) ∧
    (i ∈ miss → ∀ f ∈ generate_writes cfg i, f ∈ writes) ∧
    (snapshotCount dir.files i = cfg.n_draw * 4 → ∀ f ∈ writes, f.idx ≠ i) := by
  have hcsv : dir.hasCsv = true := by
    rcases Bool.eq_false_or_eq_true dir.hasCsv with htrue | hfalse
    · exact htrue
    · rw [generate_missing_multi_process, hfalse] at hok
      simp at hok
  rw [generate_missing_multi_process, hcsv] at hok
  rw [if_pos rfl, Except.ok.injEq, Prod.mk.injEq] at hok
  obtain ⟨hmiss, hwrites⟩ := hok
  subst hmiss
  subst hwrites
  have hmem : ∀ j, j ∈ missing_samples dir.files cfg.n_samples cfg.n_draw ↔
      j < cfg.n_samples ∧ snapshotCount dir.files j ≠ cfg.n_draw * 4 := by
    intro j
    rw [missing_samples, List.mem_filter, List.mem_range, decide_eq_true_eq]
  refine ⟨hmem i, ?_, generate_writes_idx cfg i, ?_, ?_⟩
  · intro f hf
    rcases List.mem_flatMap.mp hf with ⟨j, hj, hfj⟩
    rw [generate_writes_idx cfg j f hfj]
    exact hj
  · intro hi f hf
    exact List.mem_flatMap.mpr ⟨i, hi, hf⟩
  · intro hcount f hf heq
    rcases List.mem_flatMap.mp hf with ⟨j, hj, hfj⟩
    have hfj2 := generate_writes_idx cfg j f hfj
    rw [hfj2] at heq
    subst heq
    exact ((hmem j).mp hj).2 hcount

/-- The directory of the C1 witness: one lone snapshot of sample 0. -/
def dirW : DatasetDir := ⟨true, [⟨0, "cells_types", 350⟩]⟩

/-- The configuration of the C1 witness: one draw, two samples. -/
def cfgW : GenConfig := ⟨350, 100, 1, 2⟩

/-- Witness for C1: both samples are incomplete (counts 1 and 0 against the
expected 4), the writes are the two full generation units, and the theorem
characterizes index 0. -/
theorem c1_resumption_exact_witness :
    ((0 : ℕ) ∈ [0, 1] ↔ 0 < cfgW.n_samples ∧ snapshotCount dirW.files 0 ≠ cfgW.n_draw * 4) ∧
    (∀ f ∈ ([⟨0, "cells_types", 350⟩, ⟨0, "cells_densities", 350⟩, ⟨0, "oxygen", 350⟩,
        ⟨0, "glucose", 350⟩, ⟨1, "cells_types", 350⟩, ⟨1, "cells_densities", 350⟩,
        ⟨1, "oxygen", 350⟩, ⟨1, "glucose", 350⟩] : List SnapshotFile), f.idx ∈ [0, 1]) ∧
    (∀ f ∈ generate_writes cfgW 0, f.idx = 0) ∧
    ((0 : ℕ) ∈ [0, 1] → ∀ f ∈ generate_writes cfgW 0,
      f ∈ ([⟨0, "cells_types", 350⟩, ⟨0, "cells_densities", 350⟩, ⟨0, "oxygen", 350⟩,
        ⟨0, "glucose", 350⟩, ⟨1, "cells_types", 350⟩, ⟨1, "cells_densities", 350⟩,
        ⟨1, "oxygen", 350⟩, ⟨1, "glucose", 350⟩] : List SnapshotFile)) ∧
    (snapshotCount dirW.files 0 = cfgW.n_draw * 4 →
      ∀ f ∈ ([⟨0, "cells_types", 350⟩, ⟨0, "cells_densities", 350⟩, ⟨0, "oxygen", 350⟩,
        ⟨0, "glucose", 350⟩, ⟨1, "cells_types", 350⟩, ⟨1, "cells_densities", 350⟩,
        ⟨1, "oxygen", 350⟩, ⟨1, "glucose", 350⟩] : List SnapshotFile), f.idx ≠ 0) :=
  c1_resumption_exact dirW cfgW [0, 1] _ 0 (by rfl)

/-! ## C8: parameter sampling -/

/-- Placeholder row for out-of-range getD accesses. -/
def dummyRange : ParamRange := ⟨"", "", 0, 0, 0⟩

/-- Behaviour of one successfully drawn column: it has one entry per sample; a
parameter not of interest broadcasts its (possibly int-cast) default; an
integer parameter of interest draws integers between the truncated bounds
inclusive; a real parameter of interest with minimum strictly below maximum
draws inside the half-open interval. -/
theorem draw_column_spec (row : ParamRange) (interest : List String) (n : ℕ)
    (rowIdx : ℕ) (rngNat : ℕ → ℕ → ℕ) (rngUnit : ℕ → ℕ → ℚ) (col : List ℚ)
    (hu : ∀ i k, 0 ≤ rngUnit i k ∧ rngUnit i k < 1)
    (hok : draw_column row interest n rowIdx rngNat rngUnit = .ok col) :
    col.length = n ∧
    (row.name ∉ interest → ∀ v ∈ col,
      v = if row.type = "int" then ((pyInt row.defaultValue : ℤ) : ℚ)
          else row.defaultValue) ∧
    (row.name ∈ interest → row.type = "int" → ∀ v ∈ col,
      ∃ z : ℤ, v = (z : ℚ) ∧ pyInt row.minimum ≤ z ∧ z ≤ pyInt row.maximum) ∧
    (row.name ∈ interest → row.type ≠ "int" →
      row.minimum < row.maximum → ∀ v ∈ col,
      row.minimum ≤ v ∧ v < row.maximum) := by
  by_cases hint : row.name ∈ interest
  · rw [draw_column, if_pos hint] at hok
    by_cases htype : row.type = "int"
    · rw [if_pos htype] at hok
      by_cases hbound : pyInt row.maximum + 1 ≤ pyInt row.minimum
      · rw [if_pos hbound] at hok
        exact absurd hok (by simp)
      · rw [if_neg hbound, Except.ok.injEq] at hok
        subst hok
        refine ⟨by simp, fun hno => absurd hint hno, fun _ _ v hv => ?_,
          fun _ hne => absurd htype hne⟩
        rcases List.mem_map.mp hv with ⟨k, _, rfl⟩
        refine ⟨pyInt row.minimum +
          ((rngNat rowIdx k % (pyInt row.maximum + 1 - pyInt row.minimum).toNat : ℕ) : ℤ),
          rfl, ?_, ?_⟩
        · have : (0 : ℤ) ≤ ((rngNat rowIdx k %
              (pyInt row.maximum + 1 - pyInt row.minimum).toNat : ℕ) : ℤ) := by
            exact_mod_cast Nat.zero_le _
          omega
        · have hlt : rngNat rowIdx k % (pyInt row.maximum + 1 - pyInt row.minimum).toNat <
              (pyInt row.maximum + 1 - pyInt row.minimum).toNat :=
            Nat.mod_lt _ (by omega)
          have : ((rngNat rowIdx k % (pyInt row.maximum + 1 - pyInt row.minimum).toNat : ℕ) : ℤ) <
              ((pyInt row.maximum + 1 - pyInt row.minimum).toNat : ℤ) := by
            exact_mod_cast hlt
          omega
    · rw [if_neg htype, Except.ok.injEq] at hok
      subst hok
      refine ⟨by simp, fun hno => absurd hint hno, fun _ ht => absurd ht htype,
        fun _ _ hlt v hv => ?_⟩
      rcases List.mem_map.mp hv with ⟨k, _, rfl⟩
      rw [np_random_uniform]
      have hu1 := (hu rowIdx k).1
      have hu2 := (hu rowIdx k).2
      have hpos : (0 : ℚ) < row.maximum - row.minimum := sub_pos.mpr hlt
      constructor
      · nlinarith
      · nlinarith
  · rw [draw_column, if_neg hint] at hok
    by_cases htype : row.type = "int"
    · rw [if_pos htype, Except.ok.injEq] at hok
      subst hok
      refine ⟨by simp, fun _ v hv => ?_, fun hyes => absurd hyes hint,
        fun hyes => absurd hyes hint⟩
      rw [if_pos htype]
      exact List.eq_of_mem_replicate hv
    · rw [if_neg htype, Except.ok.injEq] at hok
      subst hok
      refine ⟨by simp, fun _ v hv => ?_, fun hyes => absurd hyes hint,
        fun hyes => absurd hyes hint⟩
      rw [if_neg htype]
      exact List.eq_of_mem_replicate hv

/-- Row-by-row behaviour of the generate_parameters loop. -/
theorem generate_parameters_aux_spec (interest : List String) (n : ℕ)
    (rngNat : ℕ → ℕ → ℕ) (rngUnit : ℕ → ℕ → ℚ)
    (hu : ∀ i k, 0 ≤ rngUnit i k ∧ rngUnit i k < 1) :
    ∀ (pd : List ParamRange) (idx : ℕ) (out : List (String × List ℚ)),
      generate_parameters_aux interest n rngNat rngUnit idx pd = .ok out →
      out.length = pd.length ∧
      ∀ j, j < pd.length →
        (out.getD j ("", [])).1 = (pd.getD j dummyRange).name ∧
        (out.getD j ("", [])).2.length = n ∧
        ((pd.getD j dummyRange).name ∉ interest → ∀ v ∈ (out.getD j ("", [])).2,
          v = if (pd.getD j dummyRange).type = "int"
              then ((pyInt (pd.getD j dummyRange).defaultValue : ℤ) : ℚ)
              else (pd.getD j dummyRange).defaultValue) ∧
        ((pd.getD j dummyRange).name ∈ interest →
          (pd.getD j dummyRange).type = "int" →
          ∀ v ∈ (out.getD j ("", [])).2, ∃ z : ℤ, v = (z : ℚ) ∧
            pyInt (pd.getD j dummyRange).minimum ≤ z ∧
            z ≤ pyInt (pd.getD j dummyRange).maximum) ∧
        ((pd.getD j dummyRange).name ∈ interest →
          (pd.getD j dummyRange).type ≠ "int" →
          (pd.getD j dummyRange).minimum < (pd.getD j dummyRange).maximum →
          ∀ v ∈ (out.getD j ("", [])).2,
            (pd.getD j dummyRange).minimum ≤ v ∧
            v < (pd.getD j dummyRange).maximum) := by
  intro pd
  induction pd with
  | nil =>
    intro idx out hok
    rw [generate_parameters_aux, Except.ok.injEq] at hok
    subst hok
    exact ⟨rfl, fun j hj => absurd hj (by simp)⟩
  | cons row rest ih =>
    intro idx out hok
    rw [generate_parameters_aux] at hok
    cases hcol : draw_column row interest n idx rngNat rngUnit with
    | error e =>
      rw [hcol] at hok
      exact absurd hok (by simp [Bind.bind, Except.bind, Functor.map, Except.map])
    | ok col =>
      rw [hcol] at hok
      cases hrest : generate_parameters_aux interest n rngNat rngUnit (idx + 1) rest with
      | error e =>
        rw [hrest] at hok
        exact absurd hok (by simp [Bind.bind, Except.bind, Functor.map, Except.map])
      | ok others =>
        rw [hrest] at hok
        simp only [Bind.bind, Except.bind, Functor.map, Except.map, Pure.pure,
          Except.pure, Except.ok.injEq] at hok
        subst hok
        have hhead := draw_column_spec row interest n idx rngNat rngUnit col hu hcol
        have htail := ih (idx + 1) others hrest
        refine ⟨by simpa using htail.1, ?_⟩
        intro j hj
        cases j with
        | zero =>
          exact ⟨rfl, hhead.1, hhead.2.1, hhead.2.2.1, hhead.2.2.2⟩
        | succ j =>
          have hj2 : j < rest.length := by simpa using hj
          simpa using htail.2 j hj2

/-- C8 amended: on a successful run every parameter not of interest receives
its default (int-cast for integer parameters) in all n rows, every integer
parameter of interest draws integers between the truncated minimum and the
truncated maximum inclusive of both ends, and every real parameter of
interest whose minimum lies strictly below its maximum draws inside the
half-open interval from the minimum (included) to the maximum (excluded);
when the two bounds of a real parameter coincide the single common value,
equal to the maximum, is drawn. -/
theorem c8_amended_parameter_draws (parameter_data : List ParamRange)
    (interest : List String) (n : ℕ) (rngNat : ℕ → ℕ → ℕ) (rngUnit : ℕ → ℕ → ℚ)
    (out : List (String × List ℚ))
    (hu : ∀ i k, 0 ≤ rngUnit i k ∧ rngUnit i k < 1)
    (hok : generate_parameters parameter_data interest n rngNat rngUnit = .ok out) :
    out.length = parameter_data.length ∧
    ∀ j, j < parameter_data.length →
      (out.getD j ("", [])).1 = (parameter_data.getD j dummyRange).name ∧
      (out.getD j ("", [])).2.length = n ∧
      ((parameter_data.getD j dummyRange).name ∉ interest →
        ∀ v ∈ (out.getD j ("", [])).2,
          v = if (parameter_data.getD j dummyRange).type = "int"
              then ((pyInt (parameter_data.getD j dummyRange).defaultValue : ℤ) : ℚ)
              else (parameter_data.getD j dummyRange).defaultValue) ∧
      ((parameter_data.getD j dummyRange).name ∈ interest →
        (parameter_data.getD j dummyRange).type = "int" →
        ∀ v ∈ (out.getD j ("", [])).2, ∃ z : ℤ, v = (z : ℚ) ∧
          pyInt (parameter_data.getD j dummyRange).minimum ≤ z ∧
          z ≤ pyInt (parameter_data.getD j dummyRange).maximum) ∧
      ((parameter_data.getD j dummyRange).name ∈ interest →
        (parameter_data.getD j dummyRange).type ≠ "int" →
        (parameter_data.getD j dummyRange).minimum <
          (parameter_data.getD j dummyRange).maximum →
        ∀ v ∈ (out.getD j ("", [])).2,
          (parameter_data.getD j dummyRange).minimum ≤ v ∧
          v < (parameter_data.getD j dummyRange).maximum) :=
  generate_parameters_aux_spec interest n rngNat rngUnit hu parameter_data 0 out hok

/-- C8 counterexample: a real parameter of interest whose minimum and maximum
are both 1 draws the value 1, which equals the maximum, so the drawn value is
not in the half-open interval excluding the maximum. -/
theorem c8_counterexample_degenerate_uniform :
    generate_parameters [⟨"x", "real", 0, 1, 1⟩] ["x"] 1
        (fun _ _ => 0) (fun _ _ => 0) = .ok [("x", [1])] ∧
      ¬ ((1 : ℚ) < (1 : ℚ)) := by
  constructor
  · with_unfolding_all rfl
  · norm_num

/-- Witness for the amended C8 statement: a two-row table with an integer
parameter of interest and a real parameter that keeps its default. -/
theorem c8_amended_parameter_draws_witness :
    ([("a", [(1 : ℚ), 3]), ("b", [5, 5])] : List (String × List ℚ)).length =
      ([⟨"a", "int", 0, 1, 3⟩, ⟨"b", "real", 5, 0, 2⟩] : List ParamRange).length ∧
    (5 : ℚ) = (if ("real" : String) = "int" then ((pyInt 5 : ℤ) : ℚ) else (5 : ℚ)) := by
  have h := c8_amended_parameter_draws
    [⟨"a", "int", 0, 1, 3⟩, ⟨"b", "real", 5, 0, 2⟩] ["a"] 2
    (fun i k => i + 5 * k) (fun _ _ => 1 / 2) [("a", [1, 3]), ("b", [5, 5])]
    (fun _ _ => ⟨by norm_num, by norm_num⟩) (by with_unfolding_all rfl)
  refine ⟨h.1, ?_⟩
  have hb := (h.2 1 (by norm_num)).2.2.1 (by simp) 5 (by simp)
  simp at hb
  simp [hb]

/-! ## C3: canonicity and deduplication of the candidate pair set -/

/-- Every member of a batch is strictly ascending and carries exactly the
batch's two parameter values (in one of the two orders). -/
theorem pair_candidates_mem (ds : List ℚ) (vp : ℚ × ℚ) (p : ℕ × ℕ)
    (hp : p ∈ pair_candidates ds vp) :
    p.1 < p.2 ∧
      ((ds.getD p.1 0 = vp.1 ∧ ds.getD p.2 0 = vp.2) ∨
        (ds.getD p.1 0 = vp.2 ∧ ds.getD p.2 0 = vp.1)) := by
  simp only [pair_candidates, np_unique] at hp
  have hp1 := List.mem_dedup.mp (List.mem_mergeSort.mp hp)
  rcases List.mem_map.mp hp1 with ⟨q, hq, rfl⟩
  rcases List.mem_filter.mp hq with ⟨hqmesh, hqne⟩
  have hne : q.1 ≠ q.2 := of_decide_eq_true hqne
  rcases List.mem_flatMap.mp hqmesh with ⟨j, hj, hqj⟩
  rcases List.mem_map.mp hqj with ⟨i, hi, rfl⟩
  have hvi : ds.getD i 0 = vp.1 :=
    of_decide_eq_true (List.mem_filter.mp hi).2
  have hvj : ds.getD j 0 = vp.2 :=
    of_decide_eq_true (List.mem_filter.mp hj).2
  refine ⟨min_lt_max.mpr hne, ?_⟩
  rcases le_total i j with hij | hij
  · rw [min_eq_left hij, max_eq_right hij]
    exact Or.inl ⟨hvi, hvj⟩
  · rw [min_eq_right hij, max_eq_left hij]
    exact Or.inr ⟨hvj, hvi⟩

/-- np.unique leaves every batch duplicate-free. -/
theorem pair_candidates_nodup (ds : List ℚ) (vp : ℚ × ℚ) :
    (pair_candidates ds vp).Nodup := by
  simp only [pair_candidates, np_unique]
  exact (List.mergeSort_perm _ _).symm.nodup (List.nodup_dedup _)

/-- The selected positions of the difference matrix are in range and in the
upper triangle. -/
theorem valuePairPositions_mem (a : List ℚ) (d tol : ℚ) (p : ℕ × ℕ)
    (hp : p ∈ valuePairPositions a d tol) :
    p.1 < a.length ∧ p.2 < a.length ∧ p.1 ≤ p.2 := by
  simp only [valuePairPositions] at hp
  rcases List.mem_filter.mp hp with ⟨hp1, hle⟩
  rcases List.mem_filter.mp hp1 with ⟨hp2, _⟩
  rcases List.mem_flatMap.mp hp2 with ⟨i, hi, hpi⟩
  rcases List.mem_map.mp hpi with ⟨j, hj, rfl⟩
  exact ⟨List.mem_range.mp hi, List.mem_range.mp hj, of_decide_eq_true hle⟩

/-- The selected position list is duplicate-free. -/
theorem valuePairPositions_nodup (a : List ℚ) (d tol : ℚ) :
    (valuePairPositions a d tol).Nodup := by
  apply List.Nodup.filter
  apply List.Nodup.filter
  rw [List.nodup_flatMap]
  constructor
  · intro i _
    exact (List.nodup_range _).map (fun x y hxy => by simpa using hxy)
  · refine List.Pairwise.imp ?_ (List.nodup_range a.length)
    intro i1 i2 hne x hx1 hx2
    rcases List.mem_map.mp hx1 with ⟨j1, _, rfl⟩
    rcases List.mem_map.mp hx2 with ⟨j2, _, hx⟩
    exact hne (by simpa using (congrArg Prod.fst hx).symm)

/-- getD is injective on in-range positions of a duplicate-free list. -/
theorem getD_inj_of_nodup (a : List ℚ) (ha : a.Nodup) (i j : ℕ)
    (hi : i < a.length) (hj : j < a.length)
    (h : a.getD i 0 = a.getD j 0) : i = j := by
  rw [List.getD_eq_getElem a 0 hi, List.getD_eq_getElem a 0 hj] at h
  exact ha.getElem_inj_iff.mp h

/-- Over a duplicate-free value list, distinct qualifying value pairs are
distinct even as unordered pairs. -/
theorem find_value_pairs_pairwise (a : List ℚ) (d tol : ℚ) (ha : a.Nodup) :
    (find_value_pairs a d tol).Pairwise
      (fun vp vq => ¬ (vp = vq ∨ (vp.1 = vq.2 ∧ vp.2 = vq.1))) := by
  rw [find_value_pairs, List.pairwise_map]
  have hnd : (valuePairPositions a d tol).Pairwise (fun p q => p ≠ q) :=
    valuePairPositions_nodup a d tol
  refine List.Pairwise.imp_of_mem ?_ hnd
  intro p q hp hq hne
  obtain ⟨hp1, hp2, hple⟩ := valuePairPositions_mem a d tol p hp
  obtain ⟨hq1, hq2, hqle⟩ := valuePairPositions_mem a d tol q hq
  rintro (heq | ⟨h1, h2⟩)
  · rw [Prod.mk.injEq] at heq
    have e1 := getD_inj_of_nodup a ha p.1 q.1 hp1 hq1 heq.1
    have e2 := getD_inj_of_nodup a ha p.2 q.2 hp2 hq2 heq.2
    exact hne (Prod.ext_iff.mpr ⟨e1, e2⟩)
  · have e1 := getD_inj_of_nodup a ha p.1 q.2 hp1 hq2 h1
    have e2 := getD_inj_of_nodup a ha p.2 q.1 hp2 hq1 h2
    exact hne (Prod.ext_iff.mpr ⟨by omega, by omega⟩)

/-- Batches of distinct qualifying value pairs share no index pair: an index
pair determines the unordered pair of its two parameter values. -/
theorem pair_candidates_disjoint (ds : List ℚ) (d tol : ℚ) :
    (find_value_pairs (get_possible_param_values ds) d tol).Pairwise
      (List.Disjoint on pair_candidates ds) := by
  have ha : (get_possible_param_values ds).Nodup := by
    rw [get_possible_param_values]
    exact List.nodup_dedup ds
  refine List.Pairwise.imp ?_ (find_value_pairs_pairwise _ d tol ha)
  intro vp vq hrel p hp hq
  obtain ⟨_, hv1⟩ := pair_candidates_mem ds vp p hp
  obtain ⟨_, hv2⟩ := pair_candidates_mem ds vq p hq
  apply hrel
  rcases hv1 with ⟨e1, e2⟩ | ⟨e1, e2⟩ <;> rcases hv2 with ⟨f1, f2⟩ | ⟨f1, f2⟩
  · exact Or.inl (Prod.ext_iff.mpr ⟨e1.symm.trans f1, e2.symm.trans f2⟩)
  · exact Or.inr ⟨e1.symm.trans f1, e2.symm.trans f2⟩
  · exact Or.inr ⟨e2.symm.trans f2, e1.symm.trans f1⟩
  · exact Or.inl (Prod.ext_iff.mpr ⟨e2.symm.trans f2, e1.symm.trans f1⟩)

/-- C3: every pair of the accumulated candidate set (before the
with-replacement subsample) has distinct components in ascending order, and no
unordered index pair occurs twice anywhere in the accumulated set, even across
batches coming from different qualifying value pairs. -/
theorem c3_candidate_pairs_canonical (ds : List ℚ) (difference tol : ℚ)
    (l : List (ℕ × ℕ)) (h : all_indexes_pairs ds difference tol = some l) :
    (∀ p ∈ l, p.1 ≠ p.2 ∧ p.1 ≤ p.2) ∧
    l.Pairwise (fun p q => ¬ (p = q ∨ (p.1 = q.2 ∧ p.2 = q.1))) := by
  have hl : l = (find_value_pairs (get_possible_param_values ds) difference
      tol).flatMap (pair_candidates ds) := by
    rw [all_indexes_pairs] at h
    cases hv : find_value_pairs (get_possible_param_values ds) difference tol with
    | nil => rw [hv] at h; simp at h
    | cons v vs =>
      rw [hv] at h
      have h2 : some ((v :: vs).flatMap (pair_candidates ds)) = some l := h
      exact (Option.some.inj h2).symm
  subst hl
  have hstrict : ∀ p ∈ (find_value_pairs (get_possible_param_values ds) difference
      tol).flatMap (pair_candidates ds), p.1 < p.2 := by
    intro p hp
    rcases List.mem_flatMap.mp hp with ⟨vp, _, hpvp⟩
    exact (pair_candidates_mem ds vp p hpvp).1
  constructor
  · intro p hp
    exact ⟨Nat.ne_of_lt (hstrict p hp), Nat.le_of_lt (hstrict p hp)⟩
  · have hnd : ((find_value_pairs (get_possible_param_values ds) difference
        tol).flatMap (pair_candidates ds)).Nodup :=
      List.nodup_flatMap.mpr ⟨fun vp _ => pair_candidates_nodup ds vp,
        pair_candidates_disjoint ds difference tol⟩
    refine List.Pairwise.imp_of_mem ?_ hnd
    intro p q hp hq hne
    rintro (rfl | ⟨h1, h2⟩)
    · exact hne rfl
    · have hps := hstrict p hp
      have hqs := hstrict q hq
      omega

/-- Witness for C3 at the dataset column [1, 2] with difference 1: the
accumulated candidate set is the single pair (0, 1). -/
theorem c3_candidate_pairs_canonical_witness :
    (∀ p ∈ ([((0 : ℕ), (1 : ℕ))] : List (ℕ × ℕ)), p.1 ≠ p.2 ∧ p.1 ≤ p.2) ∧
    ([((0 : ℕ), (1 : ℕ))] : List (ℕ × ℕ)).Pairwise
      (fun p q => ¬ (p = q ∨ (p.1 = q.2 ∧ p.2 = q.1))) :=
  c3_candidate_pairs_canonical [1, 2] 1 0 [(0, 1)] (by with_unfolding_all rfl)

/-! ## C9: injectivity of the dataset folder name -/

/-- Each digit value below ten renders as a decimal digit character. -/
theorem decDigit_isDigit (d : ℕ) (hd : d < 10) : (decDigit d).isDigit = true := by
  interval_cases d <;> decide

/-- Rendering then reading a digit value below ten is the identity. -/
theorem charToDigit_decDigit (d : ℕ) (hd : d < 10) : charToDigit (decDigit d) = d := by
  interval_cases d <;> decide

/-- Every character of a rendered number is a decimal digit. -/
theorem natToChars_digits (n : ℕ) : ∀ c ∈ natToChars n, c.isDigit = true := by
  intro c hc
  rw [natToChars] at hc
  by_cases h0 : n = 0
  · rw [if_pos h0] at hc
    rw [List.mem_singleton] at hc
    subst hc
    decide
  · rw [if_neg h0, List.mem_reverse] at hc
    rcases List.mem_map.mp hc with ⟨d, hd, rfl⟩
    exact decDigit_isDigit d (Nat.digits_lt_base (by norm_num) hd)

/-- A rendered number is never the empty string. -/
theorem natToChars_ne_nil (n : ℕ) : natToChars n ≠ [] := by
  rw [natToChars]
  by_cases h0 : n = 0
  · rw [if_pos h0]; simp
  · rw [if_neg h0]
    simp [Nat.digits_ne_nil_iff_ne_zero, h0]

/-- Decoding the reversed rendering of a number recovers the number. -/
theorem charsRevToNat_natToChars (n : ℕ) :
    charsRevToNat (natToChars n).reverse = n := by
  rw [natToChars]
  by_cases h0 : n = 0
  · rw [if_pos h0, h0]; decide
  · rw [if_neg h0, List.reverse_reverse, charsRevToNat, List.map_map]
    have hmap : (Nat.digits 10 n).map (charToDigit ∘ decDigit) =
        (Nat.digits 10 n).map id := by
      apply List.map_congr_left
      intro d hd
      exact charToDigit_decDigit d (Nat.digits_lt_base (by norm_num) hd)
    rw [hmap, List.map_id]
    exact Nat.ofDigits_digits 10 n

/-- Stripping a literal off a string that starts with it leaves the rest. -/
theorem stripLit_append (lit r : List Char) : stripLit lit (lit ++ r) = some r := by
  rw [stripLit, if_pos (List.take_left lit r), List.drop_left]

/-- A maximal digit run followed by a non-digit is read back exactly. -/
theorem parseNumRev_append (ds u : List Char)
    (hds : ∀ x ∈ ds, x.isDigit = true) (hne : ds ≠ [])
    (hu1 : u.takeWhile Char.isDigit = [])
    (hu2 : u.dropWhile Char.isDigit = u) :
    parseNumRev (ds ++ u) = some (charsRevToNat ds, u) := by
  have htake : (ds ++ u).takeWhile Char.isDigit = ds := by
    rw [List.takeWhile_append, List.takeWhile_eq_self_iff.mpr hds]
    simp [hu1]
  have hdrop : (ds ++ u).dropWhile Char.isDigit = u := by
    rw [List.dropWhile_append, List.dropWhile_eq_nil_iff.mpr hds]
    simp [hu2]
  rw [parseNumRev, htake, hdrop]
  cases ds with
  | nil => exact absurd rfl hne
  | cons d ds2 => rfl

/-- A string headed by a non-digit has an empty leading digit run. -/
theorem takeWhile_head_not_digit (c : Char) (l rest : List Char)
    (hc : c.isDigit = false) :
    ((c :: l) ++ rest).takeWhile Char.isDigit = [] := by
  rw [List.cons_append, List.takeWhile_cons, hc]
  simp

/-- Dropping the leading digit run of a string headed by a non-digit keeps it. -/
theorem dropWhile_head_not_digit (c : Char) (l rest : List Char)
    (hc : c.isDigit = false) :
    ((c :: l) ++ rest).dropWhile Char.isDigit = (c :: l) ++ rest := by
  rw [List.cons_append, List.dropWhile_cons, hc]
  simp

/-- The reversed size separator starts with a non-digit. -/
theorem litSize_take (rest : List Char) :
    (LIT_SIZE.reverse ++ rest).takeWhile Char.isDigit = [] :=
  takeWhile_head_not_digit '(' ['=', 'e', 'z', 'i', 's', '_'] rest rfl

/-- Dropping digits leaves the reversed size separator untouched. -/
theorem litSize_drop (rest : List Char) :
    (LIT_SIZE.reverse ++ rest).dropWhile Char.isDigit = LIT_SIZE.reverse ++ rest :=
  dropWhile_head_not_digit '(' ['=', 'e', 'z', 'i', 's', '_'] rest rfl

/-- The reversed draw-count separator starts with a non-digit. -/
theorem litNdraw_take (rest : List Char) :
    (LIT_NDRAW.reverse ++ rest).takeWhile Char.isDigit = [] :=
  takeWhile_head_not_digit '=' ['w', 'a', 'r', 'd', 'n', '_'] rest rfl

/-- Dropping digits leaves the reversed draw-count separator untouched. -/
theorem litNdraw_drop (rest : List Char) :
    (LIT_NDRAW.reverse ++ rest).dropWhile Char.isDigit = LIT_NDRAW.reverse ++ rest :=
  dropWhile_head_not_digit '=' ['w', 'a', 'r', 'd', 'n', '_'] rest rfl

/-- The reversed interval separator starts with a non-digit. -/
theorem litInterval_take (rest : List Char) :
    (LIT_INTERVAL.reverse ++ rest).takeWhile Char.isDigit = [] :=
  takeWhile_head_not_digit '=' ['l', 'a', 'v', 'r', 'e', 't', 'n', 'i', '_'] rest rfl

/-- Dropping digits leaves the reversed interval separator untouched. -/
theorem litInterval_drop (rest : List Char) :
    (LIT_INTERVAL.reverse ++ rest).dropWhile Char.isDigit =
      LIT_INTERVAL.reverse ++ rest :=
  dropWhile_head_not_digit '=' ['l', 'a', 'v', 'r', 'e', 't', 'n', 'i', '_'] rest rfl

/-- The reversed start separator starts with a non-digit. -/
theorem litStart_take (rest : List Char) :
    (LIT_START.reverse ++ rest).takeWhile Char.isDigit = [] :=
  takeWhile_head_not_digit '=' ['t', 'r', 'a', 't', 's', '_'] rest rfl

/-- Dropping digits leaves the reversed start separator untouched. -/
theorem litStart_drop (rest : List Char) :
    (LIT_START.reverse ++ rest).dropWhile Char.isDigit = LIT_START.reverse ++ rest :=
  dropWhile_head_not_digit '=' ['t', 'r', 'a', 't', 's', '_'] rest rfl

/-- The right-to-left parser recovers the six components of every folder
name: the numeric fields are digit-only, so the template separators are found
at exactly one position each. -/
theorem parse_folder_name_roundtrip (name : List Char)
    (start interval ndraw w h : ℕ) :
    parse_folder_name (dataset_folder_name name start interval ndraw w h) =
      some (name, start, interval, ndraw, w, h) := by
  have hdig : ∀ k : ℕ, ∀ x ∈ (natToChars k).reverse, x.isDigit = true := by
    intro k x hx
    exact natToChars_digits k x (List.mem_reverse.mp hx)
  have hnn : ∀ k : ℕ, (natToChars k).reverse ≠ [] := by
    intro k hk
    exact natToChars_ne_nil k (List.reverse_eq_nil_iff.mp hk)
  have hrev : (dataset_folder_name name start interval ndraw w h).reverse =
      [')'] ++ ((natToChars h).reverse ++ ([','] ++ ((natToChars w).reverse ++
        (LIT_SIZE.reverse ++ ((natToChars ndraw).reverse ++ (LIT_NDRAW.reverse ++
        ((natToChars interval).reverse ++ (LIT_INTERVAL.reverse ++
        ((natToChars start).reverse ++ (LIT_START.reverse ++
        name.reverse)))))))))) := by
    simp [dataset_folder_name, List.reverse_append, List.append_assoc]
  rw [parse_folder_name, hrev, stripLit_append]
  simp only [Bind.bind, Option.bind]
  rw [parseNumRev_append _ _ (hdig h) (hnn h)
    (takeWhile_head_not_digit ',' [] _ rfl) (dropWhile_head_not_digit ',' [] _ rfl)]
  simp only [Option.bind]
  rw [stripLit_append]
  simp only [Option.bind]
  rw [parseNumRev_append _ _ (hdig w) (hnn w) (litSize_take _) (litSize_drop _)]
  simp only [Option.bind]
  rw [stripLit_append]
  simp only [Option.bind]
  rw [parseNumRev_append _ _ (hdig ndraw) (hnn ndraw) (litNdraw_take _) (litNdraw_drop _)]
  simp only [Option.bind]
  rw [stripLit_append]
  simp only [Option.bind]
  rw [parseNumRev_append _ _ (hdig interval) (hnn interval)
    (litInterval_take _) (litInterval_drop _)]
  simp only [Option.bind]
  rw [stripLit_append]
  simp only [Option.bind]
  rw [parseNumRev_append _ _ (hdig start) (hnn start) (litStart_take _) (litStart_drop _)]
  simp only [Option.bind]
  rw [stripLit_append]
  simp only [Option.bind]
  simp only [charsRevToNat_natToChars, List.reverse_reverse]

/-- C9: the canonical dataset folder name is injective: two configurations
producing the same name string agree in all six components. -/
theorem c9_folder_name_injective (n1 n2 : List Char)
    (s1 i1 d1 w1 h1 s2 i2 d2 w2 h2 : ℕ)
    (heq : dataset_folder_name n1 s1 i1 d1 w1 h1 =
      dataset_folder_name n2 s2 i2 d2 w2 h2) :
    n1 = n2 ∧ s1 = s2 ∧ i1 = i2 ∧ d1 = d2 ∧ w1 = w2 ∧ h1 = h2 := by
  have r1 := parse_folder_name_roundtrip n1 s1 i1 d1 w1 h1
  have r2 := parse_folder_name_roundtrip n2 s2 i2 d2 w2 h2
  rw [heq, r2] at r1
  simp only [Option.some.injEq, Prod.mk.injEq] at r1
  exact ⟨r1.1.symm, r1.2.1.symm, r1.2.2.1.symm, r1.2.2.2.1.symm,
    r1.2.2.2.2.1.symm, r1.2.2.2.2.2.symm⟩

/-- Witness for C9 at a concrete configuration compared with itself. -/
theorem c9_folder_name_injective_witness :
    "full_treatment_dataset".toList = "full_treatment_dataset".toList ∧
    (350 : ℕ) = 350 ∧ (100 : ℕ) = 100 ∧ (8 : ℕ) = 8 ∧
    (64 : ℕ) = 64 ∧ (64 : ℕ) = 64 :=
  c9_folder_name_injective "full_treatment_dataset".toList
    "full_treatment_dataset".toList 350 100 8 64 64 350 100 8 64 64 rfl

end TumourPipeline
